import Mathlib

/-!
Verification of the demand-paging virtual-memory core of the PintOS-VM
repository (vm/vm.c, vm/anon.c incl. the uninit part, vm/file.c,
userprog/validate.c) against its natural-language specification.

The C code is shallowly embedded: each relevant C function becomes an
executable Lean function over explicit state (supplemental page tables as
association lists keyed by virtual address, frame contents as byte maps,
the swap disk as a sector map).  Machine integers are modelled as `Nat`
with explicit `% 2^64` where unsigned wraparound matters.
-/

namespace PintosVM

/-- Page size in bytes (`PGSIZE`, threads/vaddr.h). -/
def PGSIZE : Nat := 4096

/-- Disk sector size in bytes (`DISK_SECTOR_SIZE`, devices/disk.h). -/
def DISK_SECTOR_SIZE : Nat := 512

/-- Sectors per swap slot (`#define SLOT_SIZE 8`, vm/anon.h). -/
def SLOT_SIZE : Nat := 8

/-- Modelled from the spec: `USER_STACK`, the top of the user-stack region,
is defined in threads/vaddr.h which is not among the source files; the
upstream pintos-kaist value is used.  The theorems below depend only on it
being far larger than the 1 MiB maximum stack size. -/
def USER_STACK : Nat := 0x47480000

/-- `pg_round_down` (threads/vaddr.h): round an address down to its page
boundary. -/
def pg_round_down (va : Nat) : Nat := va - va % PGSIZE

/-- `pg_ofs` (threads/vaddr.h): offset of an address within its page. -/
def pg_ofs (va : Nat) : Nat := va % PGSIZE

/-- The eventual variant of an uninitialized page
(`page->uninit.type`, restricted by `vm_alloc_page_with_initializer`
to `VM_ANON` or `VM_FILE`). -/
inductive VKind
  | anonK
  | fileK
  deriving DecidableEq, Repr

/-- `struct file_load` (the `aux` passed by `do_mmap` and stored into
`page->file` by `file_backed_initializer`): the reopened file handle (an id
here), the total mapping length, per-page offset, read and zero bytes. -/
structure FileLoad where
  fileId : Nat
  file_length : Nat
  ofs : Nat
  read_bytes : Nat
  zero_bytes : Nat
  deriving DecidableEq, Repr

/-- A `struct page` as it appears in a supplemental page table: the variant
tag mirrors `page->operations->type` together with the variant member of
the union that is live (`uninit` / `anon` / `file`). -/
inductive PageEntry
  | uninit (target : VKind) (writable : Bool) (aux : Option FileLoad)
  | anon (writable : Bool)
  | filePg (writable : Bool) (fp : FileLoad)
  deriving DecidableEq, Repr

/-- `page->writable`. -/
def PageEntry.writable : PageEntry → Bool
  | .uninit _ w _ => w
  | .anon w => w
  | .filePg w _ => w

/-- The `page->file.file_length` read performed by `do_munmap`: it is a
well-defined field only when the live union member is `file`; for the other
variants the read touches bytes of a different union member. -/
def PageEntry.fileLength? : PageEntry → Option Nat
  | .filePg _ fp => some fp.file_length
  | _ => none

/-- A supplemental page table: the hash table `spt->spt_hash` keyed by
`page->va` (hashed and compared on the exact `va` bytes), modelled as an
association list from virtual address to page entry. -/
abbrev SPT := List (Nat × PageEntry)

/-- `spt_find_page` (vm/vm.c): builds a probe with `tmp.va = va` and calls
`hash_find`; the key is the exact `va` value, no rounding is applied. -/
def spt_find_page : SPT → Nat → Option PageEntry
  | [], _ => none
  | (k, e) :: rest, va => if va = k then some e else spt_find_page rest va

/-- `spt_insert_page` (vm/vm.c): `hash_insert` adds the page and returns
NULL (success) only when no element with an equal key is present. -/
def spt_insert_page (spt : SPT) (va : Nat) (e : PageEntry) : SPT × Bool :=
  match spt_find_page spt va with
  | none => ((va, e) :: spt, true)
  | some _ => (spt, false)

/-- `vm_alloc_page_with_initializer` (vm/vm.c): rounds `upage` down to its
page (`upage = pg_round_down(upage)`), checks for a duplicate with
`spt_find_page`, and registers a fresh UNINIT page carrying the eventual
type, writability and aux; returns false on a duplicate. -/
def vm_alloc_page_with_initializer (spt : SPT) (ty : VKind) (upage : Nat)
    (writable : Bool) (aux : Option FileLoad) : SPT × Bool :=
  let upage := pg_round_down upage
  match spt_find_page spt upage with
  | none => ((upage, PageEntry.uninit ty writable aux) :: spt, true)
  | some _ => (spt, false)

/-- `cnt_page` computation shared by `do_mmap` and `do_munmap`
(vm/file.c): `length % PGSIZE ? length / PGSIZE + 1 : length / PGSIZE`. -/
def cnt_page_of (length : Nat) : Nat :=
  if length % PGSIZE ≠ 0 then length / PGSIZE + 1 else length / PGSIZE

/-- The per-page registration loop of `do_mmap` (vm/file.c): for page `i`
it reopens the file (an independent handle, modelled as `fid + i`), builds
a `file_load` aux with `file_length = length` (the total mapping length,
kept for munmap), `ofs = offset + i*PGSIZE`,
`read_bytes = PGSIZE` while `length_ >= PGSIZE` else the remaining
`length_`, `zero_bytes = PGSIZE - read_bytes`, and calls
`vm_alloc_page_with_initializer` discarding its boolean result. -/
def do_mmap_loop (spt : SPT) (addr length : Nat) (writable : Bool)
    (fid offset : Nat) (remaining : Nat) (i cnt : Nat) : SPT :=
  match cnt with
  | 0 => spt
  | c + 1 =>
    let read_bytes := if remaining ≥ PGSIZE then PGSIZE else remaining
    let remaining' := if remaining ≥ PGSIZE then remaining - PGSIZE else remaining
    let aux : FileLoad :=
      { fileId := fid + i, file_length := length, ofs := offset + i * PGSIZE,
        read_bytes := read_bytes, zero_bytes := PGSIZE - read_bytes }
    let spt' := (vm_alloc_page_with_initializer spt VKind.fileK (addr + i * PGSIZE)
      writable (some aux)).1
    do_mmap_loop spt' addr length writable fid offset remaining' (i + 1) c

/-- `do_mmap` (vm/file.c): computes `cnt_page`, fails returning NULL when
`file_length(file) < offset` or when some queried address
`addr + i*PGSIZE` (for `i < cnt_page`) already has an SPT entry, and
otherwise registers one lazy file page per `i < cnt_page` and returns
`addr`.  No alignment of `addr` or `offset` is checked on this path. -/
def do_mmap (spt : SPT) (addr length : Nat) (writable : Bool)
    (fileLen offset : Nat) (fid : Nat) : Option Nat × SPT :=
  let cnt := cnt_page_of length
  if fileLen < offset then (none, spt)
  else if (List.range cnt).any
      (fun i => (spt_find_page spt (addr + i * PGSIZE)).isSome) then (none, spt)
  else (some addr, do_mmap_loop spt addr length writable fid offset length 0 cnt)

/-- One recorded `file_write_at` write-back: file handle, source virtual
address, byte count, file offset. -/
structure WriteBack where
  fileId : Nat
  srcVa : Nat
  bytes : Nat
  ofs : Nat
  deriving DecidableEq, Repr

/-- Outcome of a `do_munmap` run: `ok` carries the resulting SPT and the
write-backs performed; `crash` is the NULL dereference reached when
`spt_find_page` returns NULL inside the per-page loop and the code then
reads `page->va`; `unionRead` marks the run whose behaviour depends on
reading `page->file.file_length` of a page whose live union member is not
`file` (the value read is bytes of another variant, not modelled). -/
inductive MunmapResult
  | ok (spt : SPT) (wbs : List WriteBack)
  | crash (spt : SPT) (wbs : List WriteBack)
  | unionRead
  deriving DecidableEq, Repr

/-- `hash_delete` of the entry keyed `va`, as used by `do_munmap`. -/
def spt_delete (spt : SPT) (va : Nat) : SPT :=
  spt.filter (fun p => p.1 ≠ va)

/-- The per-page loop of `do_munmap` (vm/file.c): for each `i < cnt_page`
it looks the page up (dereferencing NULL if absent), writes
`read_bytes` bytes from `page->va` back at `ofs` when the hardware dirty
bit is set, decrements the frame count, closes the file, removes the entry
from the SPT hash and clears the hardware mapping. -/
def do_munmap_loop (dirty : Nat → Bool) (spt : SPT) (addr : Nat)
    (wbs : List WriteBack) (i cnt : Nat) : MunmapResult :=
  match cnt with
  | 0 => .ok spt wbs
  | c + 1 =>
    let va := addr + i * PGSIZE
    match spt_find_page spt va with
    | none => .crash spt wbs
    | some e =>
      match e with
      | .filePg _ fp =>
        let wbs' := if dirty va then
            wbs ++ [⟨fp.fileId, va, fp.read_bytes, fp.ofs⟩] else wbs
        do_munmap_loop dirty (spt_delete spt va) addr wbs' (i + 1) c
      | _ => .unionRead

/-- `do_munmap` (vm/file.c): returns immediately when `pg_ofs(addr) != 0`
or when `addr` has no SPT entry; otherwise reads the found page's
`file.file_length`, computes `cnt_page` from it and unmaps `cnt_page`
consecutive pages starting at `addr`.  Nothing checks that the found entry
was the start (or any part) of an mmap region. -/
def do_munmap (dirty : Nat → Bool) (spt : SPT) (addr : Nat) : MunmapResult :=
  if pg_ofs addr ≠ 0 then .ok spt []
  else
    match spt_find_page spt addr with
    | none => .ok spt []
    | some e =>
      match e.fileLength? with
      | none => .unionRead
      | some len => do_munmap_loop dirty spt addr [] 0 (cnt_page_of len)

/-- Outcome of `vm_try_handle_fault` (vm/vm.c): stack growth (with the SPT
after `vm_stack_growth` registered and claimed the page), process
termination via `exit(-1)`, claiming an existing page, or the
`vm_do_claim_page(NULL)` call reached on a present fault that is not a
write. -/
inductive FaultResult
  | growth (spt : SPT)
  | terminate
  | claimPage (va : Nat)
  | claimNull
  deriving DecidableEq, Repr

/-- The stack-growth guard of `vm_try_handle_fault` (vm/vm.c):
`user_rsp - 8 == addr || (USER_STACK - (1 << 20) <= user_rsp &&
user_rsp < addr && addr < USER_STACK)`, with the subtraction performed in
64-bit unsigned arithmetic. -/
def stack_growth_cond (rsp addr : Nat) : Bool :=
  ((rsp + (2 ^ 64 - 8)) % 2 ^ 64 == addr) ||
    (decide (USER_STACK - 2 ^ 20 ≤ rsp) && decide (rsp < addr) &&
      decide (addr < USER_STACK))

/-- `vm_stack_growth` (vm/vm.c): registers a writable (`writable = 1`)
anonymous lazy page at `pg_round_down(addr)` with a NULL initializer and
claims it. -/
def vm_stack_growth (spt : SPT) (addr : Nat) : SPT :=
  (vm_alloc_page_with_initializer spt VKind.anonK (pg_round_down addr) true none).1

/-- `vm_try_handle_fault` (vm/vm.c): on a not-present fault the stack
guard is tested first; if it holds the stack grows and the handler returns
true.  Otherwise the SPT is consulted at `pg_round_down(addr)`; a missing
page or a write to a read-only page calls `exit(-1)`.  A present fault
that is a write also calls `exit(-1)`; a present fault that is not a
write falls through to `vm_do_claim_page` with the NULL page. -/
def vm_try_handle_fault (spt : SPT) (rsp addr : Nat)
    (write notPresent : Bool) : FaultResult :=
  if notPresent then
    if stack_growth_cond rsp addr then .growth (vm_stack_growth spt addr)
    else
      match spt_find_page spt (pg_round_down addr) with
      | none => .terminate
      | some e =>
        if write && !e.writable then .terminate
        else .claimPage (pg_round_down addr)
  else if write then .terminate
  else .claimNull

/-- `vm_get_victim` (vm/vm.c), instrumented: walks the frame table (a list
of frame identifier × hardware access bit); a frame whose access bit is
unset is returned at once, otherwise the bit is cleared and the walk
continues.  Returns the chosen frame (`none` only for the empty table,
where the C `list_front` would be undefined), the table with the bits as
mutated by the walk, and the number of frames visited. -/
def vm_get_victim_walk :
    List (Nat × Bool) → Option Nat × List (Nat × Bool) × Nat
  | [] => (none, [], 0)
  | (f, a) :: rest =>
    if a = false then (some f, (f, a) :: rest, 1)
    else
      let r := vm_get_victim_walk rest
      (r.1, (f, false) :: r.2.1, r.2.2 + 1)

/-- `vm_get_victim` (vm/vm.c): the walk above; when it falls off the end
(every frame had its access bit set and was cleared) the front frame of
the (now mutated) list is returned with no further sweep. -/
def vm_get_victim (ft : List (Nat × Bool)) : Option Nat × List (Nat × Bool) × Nat :=
  match vm_get_victim_walk ft with
  | (some v, ft', n) => (some v, ft', n)
  | (none, ft', n) => ((ft'.head?).map Prod.fst, ft', n)

/-! ### Page-operations dispatch and the UNINIT conversion (vm/anon.c,
uninit part of anon.c, vm/file.c, vm/vm.c `vm_do_claim_page`) -/

/-- The `page->operations` table installed on a page: `uninit_ops` (whose
`swap_in` is `uninit_initialize`) with the pending target type and whether
a deferred initializer (`uninit.init`) was supplied, `anon_ops`, or
`file_ops`. -/
inductive OpsTag
  | uninitOps (target : VKind) (hasInit : Bool)
  | anonOps
  | fileOps
  deriving DecidableEq, Repr

/-- The operations table the variant initializer installs:
`anon_initializer` sets `page->operations = &anon_ops`,
`file_backed_initializer` sets `page->operations = &file_ops`. -/
def convTag : VKind → OpsTag
  | .anonK => .anonOps
  | .fileK => .fileOps

/-- The per-page state relevant to the conversion protocol: the installed
operations table and whether the page is resident in a frame. -/
structure PageSt where
  ops : OpsTag
  resident : Bool
  deriving DecidableEq, Repr

/-- `swap_in(page, kva)` dispatching through `page->operations->swap_in`
(called from `vm_do_claim_page`): for `uninit_ops` it is
`uninit_initialize`, which runs the stored `page_initializer` (installing
the converted operations table) and then the deferred `init` callback if
one was supplied; for `anon_ops` it is `anon_swap_in` and for `file_ops`
`file_backed_swap_in`, neither of which touches `page->operations` nor
runs the deferred initializer.  Returns the new page state and the number
of deferred-initializer invocations this call performed. -/
def swap_in_step : PageSt → PageSt × Nat
  | ⟨.uninitOps t hi, _⟩ => (⟨convTag t, true⟩, if hi then 1 else 0)
  | ⟨.anonOps, _⟩ => (⟨.anonOps, true⟩, 0)
  | ⟨.fileOps, _⟩ => (⟨.fileOps, true⟩, 0)

/-- `swap_out(page)` dispatching through `page->operations->swap_out`
(called from `vm_get_frame` during eviction): `anon_swap_out` and
`file_backed_swap_out` clear the hardware mapping and leave
`page->operations` unchanged; `uninit_ops.swap_out` is NULL (an uninit
page is never resident, so eviction never reaches it). -/
def swap_out_step : PageSt → PageSt
  | ⟨.anonOps, _⟩ => ⟨.anonOps, false⟩
  | ⟨.fileOps, _⟩ => ⟨.fileOps, false⟩
  | ⟨.uninitOps t hi, r⟩ => ⟨.uninitOps t hi, r⟩

/-- An event in the life of a claimed page: a claim/fault (which calls
`swap_in`) or an eviction (which calls `swap_out`). -/
inductive PgOp
  | claim
  | evict
  deriving DecidableEq, Repr

/-- Run a sequence of claims and evictions, accumulating the number of
deferred-initializer invocations. -/
def run_page_ops : PageSt → List PgOp → PageSt × Nat
  | p, [] => (p, 0)
  | p, .claim :: rest =>
    let s := swap_in_step p
    let r := run_page_ops s.1 rest
    (r.1, s.2 + r.2)
  | p, .evict :: rest =>
    let r := run_page_ops (swap_out_step p) rest
    (r.1, r.2)

/-! ### Anonymous swap-in (vm/anon.c `anon_swap_in`) -/

/-- An occupant recorded in a swap slot's `page_list`: its virtual
address (the slot's contents were written from and are read back through
it) and the owning address space's page table identifier. -/
structure Occ where
  va : Nat
  pml4 : Nat
  deriving DecidableEq, Repr

/-- State threaded through `anon_swap_in`: the swap disk (sector number to
sector content), the frame being filled (sector-sized chunk index to
content), the hardware mappings established by `pml4_set_page`
(pml4 × va pairs mapped to the frame), the frame's reference count, and
the global free-slot list. -/
structure SwapSt where
  disk : Nat → Nat
  frame : Nat → Nat
  mapped : List Occ
  cnt_page : Nat
  freeSlots : List Nat

/-- The single disk transfer round of `anon_swap_in` (guarded by
`read++ == 0`): for each `i < SLOT_SIZE` the sector `start + i` is read
into the frame through the just-mapped occupant's address, then that
sector is overwritten with the zero buffer (`zero_set`). -/
def slot_read_round (start : Nat) (s : SwapSt) : SwapSt :=
  { s with
    frame := fun c => if c < SLOT_SIZE then s.disk (start + c) else s.frame c,
    disk := fun sec =>
      if start ≤ sec ∧ sec < start + SLOT_SIZE then 0 else s.disk sec }

/-- The occupant loop of `anon_swap_in`: each occupant popped from the
slot's `page_list` is re-mapped to the frame (`pml4_set_page`), the disk
round runs only when the running `read` counter is zero (`read++ == 0`),
and the occupant is pushed onto the frame's `page_list` with `cnt_page`
incremented.  Alongside the state it returns the number of disk-transfer
rounds actually executed. -/
def anon_swap_in_loop (start : Nat) :
    List Occ → Nat → SwapSt → SwapSt × Nat
  | [], _, s => (s, 0)
  | o :: rest, readCnt, s =>
    let s1 := { s with mapped := s.mapped ++ [o] }
    let doRead := readCnt = 0
    let s2 := if doRead then slot_read_round start s1 else s1
    let s3 := { s2 with cnt_page := s2.cnt_page + 1 }
    let r := anon_swap_in_loop start rest (readCnt + 1) s3
    (r.1, (if doRead then 1 else 0) + r.2)

/-- `anon_swap_in` (vm/anon.c): runs the occupant loop over the slot's
recorded occupants and finally pushes the slot back onto the global
free-slot list (`swap_slot_list`).  The returned `Nat` is the number of
disk-transfer rounds performed. -/
def anon_swap_in (occs : List Occ) (start : Nat) (s : SwapSt) : SwapSt × Nat :=
  let r := anon_swap_in_loop start occs 0 s
  ({ r.1 with freeSlots := r.1.freeSlots ++ [start] }, r.2)

/-! ### Address-space duplication (vm/vm.c `supplemental_page_table_copy`) -/

/-- A source/destination SPT entry as `supplemental_page_table_copy` sees
it: an UNINIT page with its pending type and aux, a resident anonymous
page with its frame, or a resident file-backed page with its frame and
file metadata. -/
inductive SrcEntry
  | uninitE (target : VKind) (writable : Bool) (aux : Option FileLoad)
  | anonE (writable : Bool) (frame : Nat)
  | fileE (writable : Bool) (frame : Nat) (fp : FileLoad)
  deriving DecidableEq, Repr

/-- Outcome of one `palloc_get_page(PAL_USER | PAL_ZERO)` request inside
`vm_get_frame` (vm/vm.c): either the allocator returns a page — a fresh
zeroed frame — or it returns NULL and the clock sweep (`vm_evict_frame` /
`vm_get_victim`) picks a victim frame to evict and reuse.  Whether the
pool is exhausted, and which frame the sweep picks, depend on the global
memory pool and the hardware access bits — environment inputs to the
copy, supplied as an oracle consumed one entry per frame request (an
exhausted oracle means the allocator keeps succeeding). -/
inductive PallocResult
  | fresh
  | evictVictim (f : Nat)
  deriving DecidableEq, Repr

/-- State threaded through the copy: the destination SPT, the contents of
every physical frame (frame id → byte index → byte), the frame reference
counts (`frame->cnt_page`), two allocation counters — fresh frame ids
from successful `palloc_get_page` calls (ids below the counter are in
use) and fresh file handles from `file_duplicate` — and the allocator
oracle for the remaining frame requests. -/
structure CopySt where
  dst : List (Nat × SrcEntry)
  frames : Nat → Nat → Nat
  cnt : Nat → Nat
  next_frame : Nat
  next_fid : Nat
  allocs : List PallocResult

/-- `spt_find_page` on the richer destination entries of the copy. -/
def lookupE : List (Nat × SrcEntry) → Nat → Option SrcEntry
  | [], _ => none
  | (k, e) :: rest, va => if va = k then some e else lookupE rest va

/-- Update an association list at a key (used for the in-place conversion
a claim performs on the destination entry). -/
def updEntry (l : List (Nat × SrcEntry)) (va : Nat) (e : SrcEntry) :
    List (Nat × SrcEntry) :=
  l.map (fun p => if p.1 = va then (va, e) else p)

/-- `vm_alloc_page_with_initializer` as invoked on the destination SPT
during the copy: registers an UNINIT entry at `pg_round_down va` unless
one is already present, returning the success flag the caller of the copy
branch discards. -/
def dst_alloc (s : CopySt) (t : VKind) (va : Nat) (w : Bool)
    (aux : Option FileLoad) : CopySt × Bool :=
  let va := pg_round_down va
  match lookupE s.dst va with
  | none => ({ s with dst := (va, SrcEntry.uninitE t w aux) :: s.dst }, true)
  | some _ => (s, false)

/-- `vm_get_frame` (vm/vm.c): requests `palloc_get_page(PAL_USER |
PAL_ZERO)`.  On success (`fresh`) the new frame is zero-filled, enters
the frame table with `cnt_page = 1`, and the fresh-id counter advances.
On NULL (`evictVictim f`) the chosen victim `f` is evicted:
`swap_out(frame->page)` runs the variant's store routine, which pops
every occupant from the frame's `page_list` (driving `cnt_page` to zero)
and clears the occupants' hardware mappings — but it does NOT clear the
occupants' `page->frame` pointers, which go stale, and it does NOT zero
the frame's byte content, which is reused as is (this path has no
`PAL_ZERO`); the same frame object (same `kva`) is returned for reuse.
The eviction path's ring reorder and the `struct frame` calloc/free are
not observable here. -/
def vm_get_frame_m (s : CopySt) : CopySt × Nat :=
  match s.allocs with
  | PallocResult.evictVictim f :: rest =>
    ({ s with
       allocs := rest,
       cnt := fun g => if g = f then 0 else s.cnt g }, f)
  | PallocResult.fresh :: rest =>
    ({ s with
       allocs := rest,
       frames := fun g => if g = s.next_frame then (fun _ => 0) else s.frames g,
       cnt := fun g => if g = s.next_frame then 1 else s.cnt g,
       next_frame := s.next_frame + 1 }, s.next_frame)
  | [] =>
    ({ s with
       frames := fun g => if g = s.next_frame then (fun _ => 0) else s.frames g,
       cnt := fun g => if g = s.next_frame then 1 else s.cnt g,
       next_frame := s.next_frame + 1 }, s.next_frame)

/-- `vm_claim_page` (vm/vm.c) as invoked on the destination: `PANIC` when
the address has no entry (modelled `none`); on an UNINIT entry
`vm_do_claim_page` acquires a frame through `vm_get_frame` (fresh or
evicted, per the oracle), installs the mapping and runs `swap_in`, i.e.
`uninit_initialize`, which converts the entry to its target variant bound
to that frame (a file target with no aux would dereference NULL —
`none`).  Claiming an entry that is already anonymous or file-backed
reaches `anon_swap_in` / `file_backed_swap_in` with no swap slot /
eviction list and crashes — also `none`. -/
def vm_claim_page_m (s : CopySt) (va : Nat) : Option (CopySt × Nat) :=
  match lookupE s.dst va with
  | none => none
  | some (.uninitE t w aux) =>
    let r := vm_get_frame_m s
    let s := r.1
    let f := r.2
    match t with
    | .anonK => some ({ s with dst := updEntry s.dst va (.anonE w f) }, f)
    | .fileK =>
      match aux with
      | some fp => some ({ s with dst := updEntry s.dst va (.fileE w f fp) }, f)
      | none => none
  | some _ => none

/-- `memcpy(dstFrame, srcFrame, PGSIZE)` on frame contents. -/
def frame_memcpy (s : CopySt) (dstF srcF : Nat) : CopySt :=
  { s with frames := fun g =>
      if g = dstF then (fun i => if i < PGSIZE then s.frames srcF i else s.frames dstF i)
      else s.frames g }

/-- A store of byte `v` at offset `j` of frame `fid` — a user write
through a hardware mapping that points at that frame. -/
def frame_write (s : CopySt) (fid j v : Nat) : CopySt :=
  { s with frames := fun g =>
      if g = fid then (fun i => if i = j then v else s.frames fid i)
      else s.frames g }

/-- One iteration of the copy loop (vm/vm.c), following the
`switch (VM_TYPE(page->operations->type))`:
UNINIT — deep-copy the aux and re-register lazily (result discarded);
ANON — register a fresh anonymous page, claim it eagerly
(`vm_claim_page`), look the new page up in `dst` and `memcpy` the source
frame's `PGSIZE` bytes into its frame;
FILE — insert a fresh `struct page` sharing the source's frame
(`cnt_page++`) with a duplicated file handle and map it.  `none` models
the crashes reachable inside (claim panic, NULL `newpage`). -/
def copy_entry (s : CopySt) (va : Nat) : SrcEntry → Option CopySt
  | .uninitE t w aux => some (dst_alloc s t va w aux).1
  | .anonE w srcF =>
    let s1 := (dst_alloc s VKind.anonK va w none).1
    match vm_claim_page_m s1 va with
    | none => none
    | some (s2, _) =>
      match lookupE s2.dst va with
      | some (.anonE _ newF) => some (frame_memcpy s2 newF srcF)
      | some (.fileE _ newF _) => some (frame_memcpy s2 newF srcF)
      | _ => none
  | .fileE w srcF fp =>
    let fid := s.next_fid
    let e := SrcEntry.fileE w srcF { fp with fileId := fid }
    let s1 := { s with next_fid := fid + 1 }
    let s2 :=
      match lookupE s1.dst va with
      | none => { s1 with dst := (va, e) :: s1.dst }
      | some _ => s1
    some { s2 with cnt := fun g => if g = srcF then s2.cnt srcF + 1 else s2.cnt g }

/-- `supplemental_page_table_copy` (vm/vm.c): iterates over the source
entries; the body contains no failure check and no `return false` — after
the loop the function unconditionally executes `return true`.  `none`
models only the in-loop crashes (which never reach a return). -/
def supplemental_page_table_copy :
    List (Nat × SrcEntry) → CopySt → Option (CopySt × Bool)
  | [], s => some (s, true)
  | (va, e) :: rest, s =>
    match copy_entry s va e with
    | none => none
    | some s' => supplemental_page_table_copy rest s'

/-! ### User-buffer validation (userprog/validate.c) -/

/-- The page-walking loop of `validate_ptr` (userprog/validate.c): while
bytes remain, `check_page(usr, write)` is consulted (modelled by the
predicate `ok` over the raw pointer; `check_page` itself checks NULL and
the user range on the raw pointer and the SPT/fault path on
`pg_round_down(usr)`); a failed check calls `sys_exit(-1)` (result
`false`), otherwise the pointer advances by
`min(left, PGSIZE - pg_ofs(usr))`. -/
def validate_go (ok : Nat → Bool) (usr left : Nat) : Bool :=
  if h : left = 0 then true
  else if ok usr = false then false
  else
    let chunk := min left (PGSIZE - usr % PGSIZE)
    validate_go ok (usr + chunk) (left - chunk)
  termination_by left
  decreasing_by
    have hm : usr % PGSIZE < PGSIZE := Nat.mod_lt usr (by decide)
    have h1 : 1 ≤ PGSIZE - usr % PGSIZE := by omega
    have h2 : 1 ≤ left := Nat.one_le_iff_ne_zero.mpr h
    have : 1 ≤ min left (PGSIZE - usr % PGSIZE) := le_min h2 h1
    omega

/-- `validate_ptr` (userprog/validate.c): returns at once when
`size == 0`, otherwise runs the page-walking loop; `false` means the
process was terminated by `sys_exit(-1)` before the caller could copy
anything. -/
def validate_ptr (ok : Nat → Bool) (uaddr size : Nat) : Bool :=
  if size = 0 then true else validate_go ok uaddr size

/-- `copy_in` (userprog/validate.c): validates the whole user range, then
`memcpy`s and returns `size`.  `some n` = returned having copied `n`
bytes; `none` = process terminated inside `validate_ptr` with no byte
copied. -/
def copy_in (ok : Nat → Bool) (user_src size : Nat) : Option Nat :=
  if validate_ptr ok user_src size then some size else none

/-- `copy_out` (userprog/validate.c): identical shape to `copy_in` with
the write-permission variant of `check_page` (`validate_ptr(..., true)`). -/
def copy_out (okW : Nat → Bool) (user_dst size : Nat) : Option Nat :=
  if validate_ptr okW user_dst size then some size else none

/-! ## Theorems -/

/-- Rounding is idempotent. -/
lemma pg_round_down_idem (va : Nat) :
    pg_round_down (pg_round_down va) = pg_round_down va := by
  simp [pg_round_down, PGSIZE]
  omega

/-- An aligned address rounds to itself. -/
lemma pg_round_down_aligned (va : Nat) (h : va % PGSIZE = 0) :
    pg_round_down va = va := by
  simp [pg_round_down, h]

/-- A lookup misses when the key differs from every stored key. -/
lemma spt_find_page_eq_none (spt : SPT) (va : Nat)
    (h : ∀ p ∈ spt, p.1 ≠ va) : spt_find_page spt va = none := by
  induction spt with
  | nil => rfl
  | cons hd tl ih =>
    obtain ⟨k, e⟩ := hd
    have h1 : k ≠ va := h (k, e) (List.mem_cons_self _ tl)
    rw [spt_find_page, if_neg (fun hv => h1 hv.symm)]
    exact ih fun p hp => h p (List.mem_cons_of_mem _ hp)

/-- A lookup hits when the key is present. -/
lemma spt_find_page_isSome (spt : SPT) (va : Nat) (e : PageEntry)
    (h : (va, e) ∈ spt) : (spt_find_page spt va).isSome := by
  induction spt with
  | nil => simp at h
  | cons hd tl ih =>
    obtain ⟨k, e'⟩ := hd
    rw [spt_find_page]
    by_cases hk : va = k
    · rw [if_pos hk]; rfl
    · rw [if_neg hk]
      rcases List.mem_cons.mp h with h1 | h1
      · exact absurd (congrArg Prod.fst h1).symm (fun hv => hk hv.symm)
      · exact ih h1

/-- C8, counterexample.  The claim states `spt_find_page va` equals
`spt_find_page (pg_round_down va)`; on an SPT holding the page `4096`,
querying the interior address `4104` returns absent while the rounded
query finds the descriptor, so the two differ. -/
theorem C8_counterexample :
    spt_find_page [(4096, PageEntry.anon true)] 4104 = none ∧
    spt_find_page [(4096, PageEntry.anon true)] (pg_round_down 4104) =
      some (PageEntry.anon true) ∧
    spt_find_page [(4096, PageEntry.anon true)] 4104 ≠
      spt_find_page [(4096, PageEntry.anon true)] (pg_round_down 4104) := by
  refine ⟨rfl, ?_, ?_⟩ <;> simp [spt_find_page, List.lookup, pg_round_down, PGSIZE]

/-- C8 (amended): `spt_find_page` matches only the exact queried key and
applies no rounding itself; since every registered key is page-aligned, a
non-aligned query returns absent even when its containing page is
registered, and callers must round down before querying (as
`vm_try_handle_fault` does with `pg_round_down(addr)`). -/
theorem C8_spt_find_page_exact (spt : SPT) (va : Nat) (e : PageEntry)
    (hk : ∀ p ∈ spt, p.1 % PGSIZE = 0) (hva : va % PGSIZE ≠ 0)
    (he : (pg_round_down va, e) ∈ spt) :
    spt_find_page spt va = none ∧
      (spt_find_page spt (pg_round_down va)).isSome := by
  constructor
  · refine spt_find_page_eq_none spt va fun p hp hpe => ?_
    exact hva (hpe ▸ hk p hp)
  · exact spt_find_page_isSome spt _ e he

/-- C8 (amended), witness at a concrete SPT and query. -/
theorem C8_spt_find_page_exact_witness :
    spt_find_page [(4096, PageEntry.anon true)] 4104 = none ∧
      (spt_find_page [(4096, PageEntry.anon true)]
        (pg_round_down 4104)).isSome :=
  C8_spt_find_page_exact [(4096, PageEntry.anon true)] 4104
    (PageEntry.anon true)
    (by intro p hp; simp at hp; simp [hp, PGSIZE])
    (by simp [PGSIZE])
    (by simp [pg_round_down, PGSIZE])

/-- C1, counterexample.  The claim requires `do_mmap` to fail whenever
`addr` is not page-aligned; on the misaligned address `0x1008` with an
empty SPT, a zero-length file and offset `0`, the call succeeds and
returns `0x1008`. -/
theorem C1_counterexample :
    (do_mmap [] 0x1008 4096 true 0 0 0).1 = some 0x1008 ∧
    0x1008 % PGSIZE ≠ 0 := by
  constructor
  · rfl
  · simp [PGSIZE]

/-- C1 (amended): `do_mmap` fails — registering nothing, with the SPT left
unchanged — if and only if `offset` exceeds the file's length or one of
the `cnt_page` queried addresses `addr + i*PGSIZE` already has an SPT
entry; neither `addr` nor `offset` alignment is checked, and on success
the mapped address `addr` is returned. -/
theorem C1_do_mmap_fail_iff (spt : SPT) (addr length : Nat) (w : Bool)
    (fileLen offset fid : Nat) :
    ((do_mmap spt addr length w fileLen offset fid).1 = none ↔
      (fileLen < offset ∨ ∃ i < cnt_page_of length,
        (spt_find_page spt (addr + i * PGSIZE)).isSome)) ∧
    ((do_mmap spt addr length w fileLen offset fid).1 = none →
      (do_mmap spt addr length w fileLen offset fid).2 = spt) ∧
    ((do_mmap spt addr length w fileLen offset fid).1 ≠ none →
      (do_mmap spt addr length w fileLen offset fid).1 = some addr) := by
  have hbody : do_mmap spt addr length w fileLen offset fid =
      (if fileLen < offset then (none, spt)
       else if (List.range (cnt_page_of length)).any
          (fun i => (spt_find_page spt (addr + i * PGSIZE)).isSome) then (none, spt)
       else (some addr,
         do_mmap_loop spt addr length w fid offset length 0 (cnt_page_of length))) := rfl
  rw [hbody]
  by_cases h1 : fileLen < offset
  · rw [if_pos h1]
    exact ⟨⟨fun _ => Or.inl h1, fun _ => rfl⟩, fun _ => rfl, fun h => absurd rfl h⟩
  · rw [if_neg h1]
    by_cases h2 : (List.range (cnt_page_of length)).any
        (fun i => (spt_find_page spt (addr + i * PGSIZE)).isSome) = true
    · rw [if_pos h2]
      refine ⟨⟨fun _ => ?_, fun _ => rfl⟩, fun _ => rfl, fun h => absurd rfl h⟩
      rw [List.any_eq_true] at h2
      obtain ⟨i, hi, hok⟩ := h2
      exact Or.inr ⟨i, List.mem_range.mp hi, by simpa using hok⟩
    · rw [if_neg h2]
      refine ⟨⟨fun h => absurd h (by simp), fun h => ?_⟩,
        fun h => absurd h (by simp), fun _ => rfl⟩
      exfalso
      rcases h with h | ⟨i, hi, hok⟩
      · exact h1 h
      · exact h2 (List.any_eq_true.mpr ⟨i, List.mem_range.mpr hi, by simpa using hok⟩)

/-- The clock walk on a table whose access bits are all set: no victim is
found, every bit is cleared, and every frame is visited exactly once. -/
lemma vm_get_victim_walk_allset (ft : List (Nat × Bool))
    (h : ∀ p ∈ ft, p.2 = true) :
    vm_get_victim_walk ft =
      (none, ft.map (fun p => (p.1, false)), ft.length) := by
  induction ft with
  | nil => rfl
  | cons hd tl ih =>
    have hhd : hd.2 = true := h hd (List.mem_cons_self hd tl)
    obtain ⟨f, a⟩ := hd
    simp only at hhd
    subst hhd
    rw [vm_get_victim_walk, if_neg (by decide : ¬(true = false))]
    rw [ih fun p hp => h p (List.mem_cons_of_mem _ hp)]
    simp

/-- C4 (amended): when every frame's access bit is set, the single sweep
of `vm_get_victim` clears every access bit and then — with no second pass
— returns the ring's front frame; at the moment of selection every bit in
the table, the victim's included, is unset, and each frame was visited
exactly once (`n` visits for `n` frames, not `2n`). -/
theorem C4_vm_get_victim_allset (ft : List (Nat × Bool))
    (h1 : ft ≠ []) (h2 : ∀ p ∈ ft, p.2 = true) :
    (vm_get_victim ft).1 = (ft.head?).map Prod.fst ∧
    (vm_get_victim ft).1.isSome ∧
    (vm_get_victim ft).2.1 = ft.map (fun p => (p.1, false)) ∧
    (∀ p ∈ (vm_get_victim ft).2.1, p.2 = false) ∧
    (vm_get_victim ft).2.2 = ft.length := by
  unfold vm_get_victim
  rw [vm_get_victim_walk_allset ft h2]
  obtain ⟨hd, tl, rfl⟩ := List.exists_cons_of_ne_nil h1
  refine ⟨by simp, by simp, by simp, ?_, by simp⟩
  intro p hp
  simp only [List.map_cons, List.mem_cons, List.mem_map] at hp
  rcases hp with rfl | ⟨q, _, rfl⟩ <;> rfl

/-- C4 (amended), witness: a two-frame ring with both access bits set. -/
theorem C4_vm_get_victim_allset_witness :
    (vm_get_victim [(7, true), (9, true)]).1 = some 7 ∧
    (vm_get_victim [(7, true), (9, true)]).2.1 = [(7, false), (9, false)] ∧
    (vm_get_victim [(7, true), (9, true)]).2.2 = 2 := by
  have h := C4_vm_get_victim_allset [(7, true), (9, true)] (by simp)
    (by intro p hp; simp at hp; rcases hp with rfl | rfl <;> rfl)
  exact ⟨h.1, h.2.2.1, h.2.2.2.2⟩

/-- C4, counterexample.  The claim states that in the all-accessed state
every frame is visited twice (a clearing pass and a second selection
pass); on a two-frame ring with both bits set the sweep performs `2`
visits, not `2 * 2`, returning the front frame directly. -/
theorem C4_counterexample :
    (vm_get_victim [(7, true), (9, true)]).2.2 = 2 ∧
    (vm_get_victim [(7, true), (9, true)]).2.2 ≠ 2 * 2 := by
  exact ⟨rfl, by decide⟩

/-- C3, counterexample.  The claim states a not-present fault at an
address below the maximum allowed stack extent (more than 1 MiB below the
stack's top) is not grown and is fatal; with `rsp = USER_STACK - 2^21` the
fault at `rsp - 8 = 0x4727FFF8` lies below `USER_STACK - 2^20`, has no
SPT mapping, and the handler nevertheless synthesizes and claims a
writable anonymous page instead of terminating the process. -/
theorem C3_counterexample :
    vm_try_handle_fault [] 0x47280000 0x4727FFF8 true true =
      FaultResult.growth
        [(0x4727F000, PageEntry.uninit VKind.anonK true none)] ∧
    0x4727FFF8 < USER_STACK - 2 ^ 20 ∧
    spt_find_page [] (pg_round_down 0x4727FFF8) = none := by
  refine ⟨?_, by decide, rfl⟩
  have hcond : stack_growth_cond 0x47280000 0x4727FFF8 = true := by decide
  have hround : pg_round_down 0x4727FFF8 = 0x4727F000 := by decide
  unfold vm_try_handle_fault
  rw [if_pos rfl, if_pos hcond]
  unfold vm_stack_growth vm_alloc_page_with_initializer
  rw [hround, pg_round_down_aligned 0x4727F000 (by decide)]
  rfl

/-- C3 (amended): on a not-present fault at an address with no SPT
mapping, the handler synthesizes a writable anonymous lazy descriptor at
the containing page and claims it exactly when
`rsp - 8 == addr` (in 64-bit arithmetic, at any depth — even below the
maximum stack extent) or when `USER_STACK - 2^20 ≤ rsp < addr <
USER_STACK`; every other such fault terminates the process.  The guard's
second disjunct constrains `rsp`, not only `addr`, so an address within
1 MiB of the stack top does not grow the stack unless it is above `rsp`. -/
theorem C3_fault_growth_iff (spt : SPT) (rsp addr : Nat) (w : Bool)
    (hnp : spt_find_page spt (pg_round_down addr) = none) :
    (stack_growth_cond rsp addr = true →
      vm_try_handle_fault spt rsp addr w true =
        FaultResult.growth
          ((pg_round_down addr, PageEntry.uninit VKind.anonK true none) :: spt)) ∧
    (stack_growth_cond rsp addr = false →
      vm_try_handle_fault spt rsp addr w true = FaultResult.terminate) := by
  constructor
  · intro hc
    unfold vm_try_handle_fault
    rw [if_pos rfl, if_pos hc]
    simp only [vm_stack_growth, vm_alloc_page_with_initializer,
      pg_round_down_idem, hnp]
  · intro hc
    unfold vm_try_handle_fault
    rw [if_pos rfl, if_neg (by simp [hc]), hnp]

/-- C3 (amended), witness: a fault at exactly `rsp - 8` with `rsp` at the
stack top grows the stack; a fault at the same distance with the guard
false terminates. -/
theorem C3_fault_growth_iff_witness :
    (stack_growth_cond USER_STACK (USER_STACK - 8) = true →
      vm_try_handle_fault [] USER_STACK (USER_STACK - 8) false true =
        FaultResult.growth
          [(pg_round_down (USER_STACK - 8),
            PageEntry.uninit VKind.anonK true none)]) ∧
    (stack_growth_cond USER_STACK (USER_STACK - 8) = false →
      vm_try_handle_fault [] USER_STACK (USER_STACK - 8) false true =
        FaultResult.terminate) :=
  C3_fault_growth_iff [] USER_STACK (USER_STACK - 8) false rfl

/-- A page whose operations table is already the anonymous or file-backed
one never runs the deferred initializer again and never changes its
table: `anon_swap_in`, `file_backed_swap_in`, `anon_swap_out` and
`file_backed_swap_out` all leave `page->operations` alone. -/
lemma run_page_ops_converted (p : PageSt) (ops : List PgOp)
    (h : p.ops = OpsTag.anonOps ∨ p.ops = OpsTag.fileOps) :
    (run_page_ops p ops).2 = 0 ∧ (run_page_ops p ops).1.ops = p.ops := by
  induction ops generalizing p with
  | nil => exact ⟨rfl, rfl⟩
  | cons op rest ih =>
    obtain ⟨t, r⟩ := p
    rcases h with h | h <;> subst h <;>
      cases op <;> simpa [run_page_ops, swap_in_step, swap_out_step]
        using ih _ (by simp)

/-- C2: a registered lazy page (UNINIT operations, deferred initializer
present) is converted by its first claim's `swap_in` — which is
`uninit_initialize` — to its eventual variant's operations table, running
the deferred initializer there; across any later sequence of evictions
and re-claims the total number of initializer runs stays `1` and the
operations table stays the converted variant, so no subsequent fault ever
re-enters the Uninit conversion. -/
theorem C2_uninit_converts_once (t : VKind) (ops : List PgOp) :
    (swap_in_step ⟨OpsTag.uninitOps t true, false⟩).1.ops = convTag t ∧
    (swap_in_step ⟨OpsTag.uninitOps t true, false⟩).2 +
      (run_page_ops (swap_in_step ⟨OpsTag.uninitOps t true, false⟩).1 ops).2 = 1 ∧
    (run_page_ops (swap_in_step ⟨OpsTag.uninitOps t true, false⟩).1 ops).1.ops =
      convTag t := by
  have hconv : (swap_in_step ⟨OpsTag.uninitOps t true, false⟩).1 =
      ⟨convTag t, true⟩ := rfl
  have hc : convTag t = OpsTag.anonOps ∨ convTag t = OpsTag.fileOps := by
    cases t <;> simp [convTag]
  have h := run_page_ops_converted ⟨convTag t, true⟩ ops hc
  rw [hconv]
  exact ⟨rfl, by simp [h.1, swap_in_step], h.2⟩

/-- C9 (amended): `do_munmap` on a misaligned address or on an address
with no SPT entry returns immediately: the SPT is unchanged and no
write-back is performed.  (The guard does not, however, check that a
found entry is the start of a mapping — see the counterexample.) -/
theorem C9_do_munmap_noop (dirty : Nat → Bool) (spt : SPT) (addr : Nat)
    (h : pg_ofs addr ≠ 0 ∨ spt_find_page spt addr = none) :
    do_munmap dirty spt addr = MunmapResult.ok spt [] := by
  unfold do_munmap
  rcases h with h | h
  · rw [if_pos h]
  · by_cases ha : pg_ofs addr ≠ 0
    · rw [if_pos ha]
    · rw [if_neg ha, h]

/-- C9 (amended), witness: unmapping the unregistered aligned address
`0x5000` of a one-page SPT is a no-op. -/
theorem C9_do_munmap_noop_witness :
    do_munmap (fun _ => true)
      [(0x1000, PageEntry.filePg true ⟨1, 4096, 0, 4096, 0⟩)] 0x5000 =
      MunmapResult.ok
        [(0x1000, PageEntry.filePg true ⟨1, 4096, 0, 4096, 0⟩)] [] :=
  C9_do_munmap_noop (fun _ => true) _ 0x5000 (Or.inr (by decide))

/-- C9, counterexample.  `0x2000` was never passed to (or returned by)
`map`: it is the interior page of the two-page mapping made at `0x1000`
(the first conjunct shows `do_mmap` registers the region as one call at
`0x1000`).  Yet `do_munmap(0x2000)` is not a no-op: it deletes the
`0x2000` entry and then crashes dereferencing the NULL lookup of
`0x3000`, one page past the mapping's end. -/
theorem C9_counterexample :
    (do_mmap [] 0x1000 8192 true 8192 0 10).1 = some 0x1000 ∧
    do_munmap (fun _ => false)
      [(0x1000, PageEntry.filePg true ⟨10, 8192, 0, 4096, 0⟩),
       (0x2000, PageEntry.filePg true ⟨11, 8192, 4096, 4096, 0⟩)] 0x2000 =
      MunmapResult.crash
        [(0x1000, PageEntry.filePg true ⟨10, 8192, 0, 4096, 0⟩)] [] ∧
    do_munmap (fun _ => false)
      [(0x1000, PageEntry.filePg true ⟨10, 8192, 0, 4096, 0⟩),
       (0x2000, PageEntry.filePg true ⟨11, 8192, 4096, 4096, 0⟩)] 0x2000 ≠
      MunmapResult.ok
        [(0x1000, PageEntry.filePg true ⟨10, 8192, 0, 4096, 0⟩),
         (0x2000, PageEntry.filePg true ⟨11, 8192, 4096, 4096, 0⟩)] [] := by
  refine ⟨by decide, by decide, by decide⟩

/-- After its first iteration the occupant loop of `anon_swap_in` runs
with a nonzero `read` counter: it performs no further disk transfer, maps
the remaining occupants, and bumps `cnt_page` once per occupant. -/
lemma anon_swap_in_loop_tail (start : Nat) (occs : List Occ) (k : Nat)
    (hk : k ≠ 0) (s : SwapSt) :
    anon_swap_in_loop start occs k s =
      ({ s with mapped := s.mapped ++ occs,
                cnt_page := s.cnt_page + occs.length }, 0) := by
  induction occs generalizing k s with
  | nil => simp [anon_swap_in_loop]
  | cons o rest ih =>
    rw [anon_swap_in_loop]
    simp only [if_neg hk]
    rw [ih (k + 1) (Nat.succ_ne_zero k)]
    obtain ⟨d, f, m, c, fr⟩ := s
    simp [List.append_assoc]
    omega

/-- The first iteration of the occupant loop (read counter `0`): maps the
head occupant, performs the single disk round, then the tail lemma
finishes the remaining occupants with no further transfer. -/
lemma anon_swap_in_loop_cons (start : Nat) (o : Occ) (rest : List Occ)
    (s : SwapSt) :
    anon_swap_in_loop start (o :: rest) 0 s =
      (⟨fun sec => if start ≤ sec ∧ sec < start + SLOT_SIZE then 0 else s.disk sec,
        fun c => if c < SLOT_SIZE then s.disk (start + c) else s.frame c,
        s.mapped ++ (o :: rest),
        s.cnt_page + (rest.length + 1),
        s.freeSlots⟩, 1) := by
  obtain ⟨d, f, m, c, fr⟩ := s
  rw [anon_swap_in_loop]
  simp only [eq_self_iff_true, if_true]
  rw [anon_swap_in_loop_tail start rest 1 one_ne_zero]
  have hc2 : c + 1 + rest.length = c + (rest.length + 1) := by omega
  simp [slot_read_round, hc2]

/-- C5: an anonymous swap-in of a slot with `n ≥ 1` recorded occupants
performs exactly one disk-transfer round (not one per occupant), loads
the slot's sectors into the frame, re-establishes the hardware mapping of
every occupant, overwrites the slot's sectors with zeros, returns the
slot to the free-slot list, and accounts one frame reference per
occupant. -/
theorem C5_anon_swap_in_shared (occs : List Occ) (start : Nat) (s : SwapSt)
    (h : occs ≠ []) :
    (anon_swap_in occs start s).2 = 1 ∧
    (anon_swap_in occs start s).1.mapped = s.mapped ++ occs ∧
    (∀ i < SLOT_SIZE, (anon_swap_in occs start s).1.frame i = s.disk (start + i)) ∧
    (∀ sec, start ≤ sec → sec < start + SLOT_SIZE →
      (anon_swap_in occs start s).1.disk sec = 0) ∧
    (anon_swap_in occs start s).1.freeSlots = s.freeSlots ++ [start] ∧
    (anon_swap_in occs start s).1.cnt_page = s.cnt_page + occs.length := by
  obtain ⟨o, rest, rfl⟩ := List.exists_cons_of_ne_nil h
  unfold anon_swap_in
  rw [anon_swap_in_loop_cons]
  refine ⟨rfl, rfl, ?_, ?_, rfl, by simp⟩
  · intro i hi
    simp only
    rw [if_pos hi]
  · intro sec h1 h2
    simp only
    rw [if_pos ⟨h1, h2⟩]

/-- C5, witness: a slot at sector `8` shared by two occupants. -/
theorem C5_anon_swap_in_shared_witness :
    (anon_swap_in [⟨0x1000, 1⟩, ⟨0x2000, 2⟩] 8
      ⟨fun sec => sec + 100, fun _ => 0, [], 0, []⟩).2 = 1 ∧
    (anon_swap_in [⟨0x1000, 1⟩, ⟨0x2000, 2⟩] 8
      ⟨fun sec => sec + 100, fun _ => 0, [], 0, []⟩).1.mapped =
      [] ++ [⟨0x1000, 1⟩, ⟨0x2000, 2⟩] ∧
    (∀ i < SLOT_SIZE,
      (anon_swap_in [⟨0x1000, 1⟩, ⟨0x2000, 2⟩] 8
        ⟨fun sec => sec + 100, fun _ => 0, [], 0, []⟩).1.frame i = 8 + i + 100) ∧
    (anon_swap_in [⟨0x1000, 1⟩, ⟨0x2000, 2⟩] 8
      ⟨fun sec => sec + 100, fun _ => 0, [], 0, []⟩).1.freeSlots = [] ++ [8] := by
  have h := C5_anon_swap_in_shared [⟨0x1000, 1⟩, ⟨0x2000, 2⟩] 8
    ⟨fun sec => sec + 100, fun _ => 0, [], 0, []⟩ (by simp)
  exact ⟨h.1, h.2.1, h.2.2.1, h.2.2.2.2.1⟩

/-- C7 (amended): `supplemental_page_table_copy` contains no failure
propagation — whenever it returns at all, the returned flag is `true`,
regardless of per-entry registration or claim failures. -/
theorem C7_copy_always_true (src : List (Nat × SrcEntry)) (s : CopySt)
    (res : CopySt × Bool) (h : supplemental_page_table_copy src s = some res) :
    res.2 = true := by
  induction src generalizing s with
  | nil =>
    rw [supplemental_page_table_copy] at h
    cases h
    rfl
  | cons hd rest ih =>
    obtain ⟨va, e⟩ := hd
    rw [supplemental_page_table_copy] at h
    cases hc : copy_entry s va e with
    | none => rw [hc] at h; cases h
    | some s' => rw [hc] at h; exact ih s' h

/-- The fixed destination state of the C7 scenario: the destination SPT
already holds an entry at address `0`. -/
def c7_dst_state : CopySt :=
  ⟨[(0, SrcEntry.anonE true 5)], fun _ _ => 0, fun _ => 0, 6, 0, []⟩

/-- C7 (amended), witness: the empty copy returns `true`. -/
theorem C7_copy_always_true_witness : (c7_dst_state, true).2 = true :=
  C7_copy_always_true [] c7_dst_state (c7_dst_state, true) rfl

/-- C7, counterexample.  Copying a source whose entry at address `0` must
be re-registered into a destination that already holds an entry there:
the registration step (`vm_alloc_page_with_initializer`) fails — second
conjunct — yet the copy returns `true` with the destination unchanged
(the source's UNINIT entry was never duplicated), where the claim
requires a failure return. -/
theorem C7_counterexample :
    supplemental_page_table_copy
      [(0, SrcEntry.uninitE VKind.anonK true none)] c7_dst_state =
      some (c7_dst_state, true) ∧
    (dst_alloc c7_dst_state VKind.anonK 0 true none).2 = false ∧
    lookupE c7_dst_state.dst 0 = some (SrcEntry.anonE true 5) := by
  exact ⟨rfl, rfl, rfl⟩

/-- C6 (amended): when every frame request during the copy takes the
allocator-success path (`allocs = []`: `palloc_get_page` never returns
NULL, so no eviction runs), duplicating an Anonymous source entry
(resident in frame `f`) creates in the destination a separate descriptor
eagerly claimed into the freshly allocated frame `next_frame ≠ f`, copies
the source frame's `PGSIZE` bytes into it, leaves the source frame
untouched, and a subsequent write through the destination's frame never
changes the source frame's content — anonymous memory is private after
the copy.  (On the eviction path this fails — see the counterexample.) -/
theorem C6_anon_copy_private (va : Nat) (w : Bool) (f : Nat) (s : CopySt)
    (hva : va % PGSIZE = 0) (hdst : lookupE s.dst va = none)
    (hf : f < s.next_frame) (hal : s.allocs = []) :
    ∃ s', supplemental_page_table_copy [(va, SrcEntry.anonE w f)] s =
        some (s', true) ∧
      lookupE s'.dst va = some (SrcEntry.anonE w s.next_frame) ∧
      s.next_frame ≠ f ∧
      (∀ i < PGSIZE, s'.frames s.next_frame i = s.frames f i) ∧
      (∀ i, s'.frames f i = s.frames f i) ∧
      (∀ j v i, (frame_write s' s.next_frame j v).frames f i = s.frames f i) := by
  have hne : s.next_frame ≠ f := (Nat.ne_of_lt hf).symm
  have hround : pg_round_down va = va := pg_round_down_aligned va hva
  obtain ⟨dst, frames, cnt, nf, nfid, allocs⟩ := s
  simp only at hdst hf hne hal ⊢
  subst hal
  have halloc : dst_alloc ⟨dst, frames, cnt, nf, nfid, []⟩ VKind.anonK va w none =
      (⟨(va, SrcEntry.uninitE VKind.anonK w none) :: dst, frames, cnt, nf, nfid,
        []⟩, true) := by
    unfold dst_alloc
    simp only [hround, hdst]
  have hclaim : vm_claim_page_m
      ⟨(va, SrcEntry.uninitE VKind.anonK w none) :: dst,
        frames, cnt, nf, nfid, []⟩ va =
      some (⟨updEntry ((va, SrcEntry.uninitE VKind.anonK w none) :: dst) va
          (SrcEntry.anonE w nf),
        fun g => if g = nf then (fun _ => 0) else frames g,
        fun g => if g = nf then 1 else cnt g, nf + 1, nfid, []⟩, nf) := by
    unfold vm_claim_page_m vm_get_frame_m
    simp [lookupE]
  have hupd : updEntry ((va, SrcEntry.uninitE VKind.anonK w none) :: dst) va
      (SrcEntry.anonE w nf) =
      (va, SrcEntry.anonE w nf) :: updEntry dst va (SrcEntry.anonE w nf) := by
    simp [updEntry]
  have hce : copy_entry ⟨dst, frames, cnt, nf, nfid, []⟩ va (SrcEntry.anonE w f) =
      some (frame_memcpy
        ⟨(va, SrcEntry.anonE w nf) :: updEntry dst va (SrcEntry.anonE w nf),
          fun g => if g = nf then (fun _ => 0) else frames g,
          fun g => if g = nf then 1 else cnt g, nf + 1, nfid, []⟩ nf f) := by
    rw [copy_entry]
    rw [halloc]
    simp only
    rw [hclaim]
    simp only
    rw [hupd]
    simp [lookupE]
  refine ⟨frame_memcpy
      ⟨(va, SrcEntry.anonE w nf) :: updEntry dst va (SrcEntry.anonE w nf),
        fun g => if g = nf then (fun _ => 0) else frames g,
        fun g => if g = nf then 1 else cnt g, nf + 1, nfid, []⟩ nf f,
    ?_, ?_, hne, ?_, ?_, ?_⟩
  · rw [supplemental_page_table_copy, hce]
    rfl
  · simp [frame_memcpy, lookupE]
  · intro i hi
    simp [frame_memcpy, hne, if_neg (Ne.symm hne), hi]
  · intro i
    simp [frame_memcpy, if_neg (Ne.symm hne)]
  · intro j v i
    simp [frame_write, frame_memcpy, if_neg (Ne.symm hne)]

/-- C6 (amended), witness: a one-entry source SPT over a concrete state
whose allocator oracle is empty (palloc succeeds). -/
theorem C6_anon_copy_private_witness :
    ∃ s', supplemental_page_table_copy [(0x3000, SrcEntry.anonE true 2)]
        ⟨[], fun _ i => i + 7, fun _ => 1, 3, 0, []⟩ = some (s', true) ∧
      lookupE s'.dst 0x3000 = some (SrcEntry.anonE true 3) ∧
      (3 : Nat) ≠ 2 ∧
      (∀ i < PGSIZE, s'.frames 3 i = (fun (_ : Nat) (i : Nat) => i + 7) 2 i) ∧
      (∀ i, s'.frames 2 i = (fun (_ : Nat) (i : Nat) => i + 7) 2 i) ∧
      (∀ j v i, (frame_write s' 3 j v).frames 2 i =
        (fun (_ : Nat) (i : Nat) => i + 7) 2 i) :=
  C6_anon_copy_private 0x3000 true 2 ⟨[], fun _ i => i + 7, fun _ => 1, 3, 0, []⟩
    (by decide) rfl (by decide) rfl

/-- The pre-fork state of the C6 counterexample: the parent has two
resident anonymous pages — `0x1000` backed by frame `1` (every byte
`11`) and `0x2000` backed by frame `2` (every byte `22`).  The physical
pool is exhausted at the copy's first frame request and the clock sweep
picks frame `2` — the frame of the not-yet-copied source page — as the
victim; the second request succeeds. -/
def c6_evict_state : CopySt :=
  ⟨[], fun g _ => if g = 1 then 11 else if g = 2 then 22 else 0, fun _ => 1,
    3, 0, [PallocResult.evictVictim 2, PallocResult.fresh]⟩

/-- The parent's source SPT of the C6 counterexample. -/
def c6_src : List (Nat × SrcEntry) :=
  [(0x1000, SrcEntry.anonE true 1), (0x2000, SrcEntry.anonE true 2)]

/-- C6, counterexample.  The claim promises every Anonymous entry a
distinct frame holding a byte-for-byte copy of its source frame's
content.  In this reachable run, claiming the copy of `0x1000` exhausts
the pool, so `vm_get_frame` evicts frame `2`: the source page `0x2000`
is swapped out, but its `page->frame` pointer is left stale and the
recycled frame is overwritten with `0x1000`'s bytes (`11`).  When the
loop reaches `0x2000`, its `memcpy` reads through the stale pointer from
that recycled frame, so the destination's `0x2000` page ends up with
byte `11` where the source held `22` — and the copy still returns
`true`. -/
theorem C6_counterexample :
    (supplemental_page_table_copy c6_src c6_evict_state).map
        (fun r => (r.2, lookupE r.1.dst 0x2000, r.1.frames 3 0)) =
      some (true, some (SrcEntry.anonE true 3), 11) ∧
    c6_evict_state.frames 2 0 = 22 ∧
    (11 : Nat) ≠ 22 := by
  exact ⟨rfl, rfl, by decide⟩

/-- The page-walking loop checks exactly the start address and every page
boundary inside the range: it returns `true` iff `check_page` accepts all
of them. -/
lemma validate_go_iff (ok : Nat → Bool) (usr left : Nat) :
    validate_go ok usr left = true ↔
      ∀ a, usr ≤ a → a < usr + left → (a = usr ∨ a % PGSIZE = 0) →
        ok a = true := by
  induction left using Nat.strong_induction_on generalizing usr with
  | _ left ih =>
    by_cases h0 : left = 0
    · subst h0
      rw [validate_go, dif_pos rfl]
      constructor
      · intro _ a h1 h2 _
        omega
      · intro _
        rfl
    · rw [validate_go, dif_neg h0]
      by_cases hok : ok usr = false
      · rw [if_pos hok]
        constructor
        · intro hcontra
          exact absurd hcontra (by simp)
        · intro hall
          have hu := hall usr le_rfl (by omega) (Or.inl rfl)
          rw [hok] at hu
          exact hu
      · have hoku : ok usr = true := by
          cases hcase : ok usr
          · exact absurd hcase hok
          · rfl
        rw [if_neg hok]
        have hm : usr % PGSIZE < PGSIZE := Nat.mod_lt usr (by decide)
        have hlt : left - min left (PGSIZE - usr % PGSIZE) < left := by omega
        show validate_go ok (usr + min left (PGSIZE - usr % PGSIZE))
            (left - min left (PGSIZE - usr % PGSIZE)) = true ↔ _
        rw [ih _ hlt]
        constructor
        · intro htail a h1 h2 h3
          rcases h3 with rfl | h3
          · exact hoku
          · rcases Nat.lt_or_ge a (usr + min left (PGSIZE - usr % PGSIZE))
              with hlt2 | hge
            · have haeq : a = usr := by
                simp only [PGSIZE] at *
                omega
              rw [haeq]
              exact hoku
            · exact htail a hge (by omega) (Or.inr h3)
        · intro hall a h1 h2 h3
          apply hall a (by omega) (by omega)
          rcases h3 with rfl | h3
          · right
            simp only [PGSIZE] at *
            omega
          · exact Or.inr h3

/-- C10: `copy_in` and `copy_out` run `validate_ptr` over the whole user
range before any byte moves: the copy succeeds (transferring exactly
`size` bytes) iff `check_page` accepts the range's start address and
every page boundary inside the range — a sample set whose rounded pages
cover every page overlapping `[uaddr, uaddr+size)` (third conjunct) — and
otherwise the process is terminated with no byte copied; no partial copy
is possible. -/
theorem C10_copy_all_or_nothing (ok okW : Nat → Bool)
    (src dst size : Nat) (hs : 0 < size) :
    (copy_in ok src size = some size ∨ copy_in ok src size = none) ∧
    (copy_in ok src size = some size ↔
      ∀ a, src ≤ a → a < src + size → (a = src ∨ a % PGSIZE = 0) →
        ok a = true) ∧
    (∀ p, p % PGSIZE = 0 → p < src + size → src < p + PGSIZE →
      ∃ a, src ≤ a ∧ a < src + size ∧ (a = src ∨ a % PGSIZE = 0) ∧
        pg_round_down a = p) ∧
    (copy_out okW dst size = some size ∨ copy_out okW dst size = none) ∧
    (copy_out okW dst size = some size ↔
      ∀ a, dst ≤ a → a < dst + size → (a = dst ∨ a % PGSIZE = 0) →
        okW a = true) := by
  have hsz : size ≠ 0 := Nat.pos_iff_ne_zero.mp hs
  refine ⟨?_, ?_, ?_, ?_, ?_⟩
  · unfold copy_in
    split
    · exact Or.inl rfl
    · exact Or.inr rfl
  · unfold copy_in validate_ptr
    rw [if_neg hsz, ← validate_go_iff ok src size]
    split
    · simp_all
    · simp_all
  · intro p hp h1 h2
    rcases le_or_lt p src with hle | hgt
    · refine ⟨src, le_rfl, by omega, Or.inl rfl, ?_⟩
      simp only [pg_round_down, PGSIZE] at *
      omega
    · refine ⟨p, by omega, by omega, Or.inr hp, ?_⟩
      simp only [pg_round_down, PGSIZE] at *
      omega
  · unfold copy_out
    split
    · exact Or.inl rfl
    · exact Or.inr rfl
  · unfold copy_out validate_ptr
    rw [if_neg hsz, ← validate_go_iff okW dst size]
    split
    · simp_all
    · simp_all

/-- C10, witness: a 5000-byte range starting mid-page under an
always-accepting `check_page`. -/
theorem C10_copy_all_or_nothing_witness :
    (copy_in (fun _ => true) 4100 5000 = some 5000 ∨
      copy_in (fun _ => true) 4100 5000 = none) ∧
    (copy_in (fun _ => true) 4100 5000 = some 5000 ↔
      ∀ a, 4100 ≤ a → a < 4100 + 5000 → (a = 4100 ∨ a % PGSIZE = 0) →
        (fun (_ : Nat) => true) a = true) ∧
    (∀ p, p % PGSIZE = 0 → p < 4100 + 5000 → 4100 < p + PGSIZE →
      ∃ a, 4100 ≤ a ∧ a < 4100 + 5000 ∧ (a = 4100 ∨ a % PGSIZE = 0) ∧
        pg_round_down a = p) ∧
    (copy_out (fun _ => false) 0x2000 5000 = some 5000 ∨
      copy_out (fun _ => false) 0x2000 5000 = none) ∧
    (copy_out (fun _ => false) 0x2000 5000 = some 5000 ↔
      ∀ a, 0x2000 ≤ a → a < 0x2000 + 5000 → (a = 0x2000 ∨ a % PGSIZE = 0) →
        (fun (_ : Nat) => false) a = true) :=
  C10_copy_all_or_nothing (fun _ => true) (fun _ => false) 4100 0x2000 5000
    (by decide)

end PintosVM
